import Mathlib

/-!
Shallow embedding of the JSON-RPC 1.0 and JSON-RPC 2.0 codecs of the rpc2
repository (src/jsonrpc/jsonrpc.go and src/jsonrpc2/jsonrpc2.go), together
with theorems settling the claims about request-id remapping, the pending
map discipline, notification semantics, parameter shapes and error
surfacing.

Modelling conventions:
* JSON values decoded by Go's encoding/json into an empty-interface value
  are modelled by the inductive type `Json`.  A decoded JSON number is
  modelled as an integer (the claims never depend on fractional numbers).
* A `json.RawMessage` holds the raw bytes of one JSON value; the codecs
  either pass those bytes through unchanged or unmarshal them, so a raw
  message is modelled by the `Json` value those bytes denote.
* A Go pointer field that encoding/json sets to nil both for an absent
  field and for a JSON null is modelled as an `Option`: `none` covers the
  absent-or-null case.
* The codec's mutable receiver state (`seq`, `pending`, and the pieces of
  the temporary work space that survive one call) is threaded explicitly
  through a `CodecState` value.
* A function that can return a Go error is given an explicit error result;
  a nil-pointer dereference (a runtime panic, not a returned error) is a
  distinguished `panicked` outcome.
* `seq` is a Go uint64, so its increment is taken modulo 2^64.
-/

/-- A JSON value as decoded by Go's encoding/json into an empty interface
(null, bool, number, string, array, object). -/
inductive Json where
  | null : Json
  | bool (b : Bool) : Json
  | num (n : Int) : Json
  | str (s : String) : Json
  | arr (elems : List Json) : Json
  | obj (fields : List (String × Json)) : Json
  deriving Repr, Inhabited

/-- `json.RawMessage`: the raw bytes of one JSON value, modelled by the
value they denote. -/
abbrev RawMessage := Json

/-- Modelled from the spec: the structured JSON-RPC 2.0 error payload
`rpc2.JsonRpcError` (its Go definition lives in the rpc2 core package,
which is not part of the sources here); the spec gives its shape as
code: i64, message: string, data: optional value. -/
structure JsonRpcError where
  code : Int
  message : String
  data : Option Json
  deriving Repr, Inhabited

/-- The dynamic value stored in the `Error` field (a Go empty interface)
of `rpc2.Response`: the 1.0 codec stores a string, the 2.0 codec stores a
`*rpc2.JsonRpcError`. -/
inductive RespError where
  | str (s : String) : RespError
  | jsonRpc (e : JsonRpcError) : RespError
  deriving Repr, Inhabited

/-- Modelled from the spec: `rpc2.Request` (rpc2 core package, not in the
sources here); the spec's request frame carries a method name and a u64
seq, `seq == 0` meaning notification. -/
structure Request where
  method : String
  seq : Nat
  deriving Repr, Inhabited

/-- Modelled from the spec: `rpc2.Response` (rpc2 core package, not in the
sources here); the spec's response frame carries the echoed u64 seq and an
optional error.  `error = none` models a nil interface value. -/
structure Response where
  seq : Nat
  error : Option RespError
  deriving Repr, Inhabited

/-- The Go errors the embedded codec functions can return, one constructor
per construction site in the source. -/
inductive GoErr where
  /-- `errors.New("invalid sequence number in response")` -/
  | invalidSeqInResponse : GoErr
  /-- `errors.New("cannot determine message type")` -/
  | cannotDetermineMessageType : GoErr
  /-- `fmt.Errorf("invalid error %v", ...)` with the offending value -/
  | invalidError (v : Option Json) : GoErr
  /-- `errMissingParams = errors.New("jsonrpc: request body missing params")` -/
  | missingParams : GoErr
  /-- an error returned by encoding/json (carrying a descriptive text) -/
  | jsonError (s : String) : GoErr
  /-- `fmt.Errorf("failed to unmarshall error %v: %w", ...)` in jsonrpc2 -/
  | failedToUnmarshallError (s : String) : GoErr
  deriving Repr, Inhabited

/-- Go uint64 modulus. -/
def u64Mod : Nat := 2 ^ 64

/-- Lookup in a Go map modelled as an association list. -/
def mapLookup {α : Type} : List (Nat × α) → Nat → Option α
  | [], _ => none
  | p :: ps, k => if p.1 = k then some p.2 else mapLookup ps k

/-- `delete(m, k)` on a Go map modelled as an association list. -/
def mapErase {α : Type} : List (Nat × α) → Nat → List (Nat × α)
  | [], _ => []
  | p :: ps, k => if p.1 = k then mapErase ps k else p :: mapErase ps k

/-- `m[k] = v` on a Go map modelled as an association list. -/
def mapInsert {α : Type} (m : List (Nat × α)) (k : Nat) (v : α) :
    List (Nat × α) :=
  (k, v) :: mapErase m k

/-- The mutable state of one `jsonCodec` value that survives across calls
(same layout in both codec packages): the `seq` counter, the
`pending map[uint64]*json.RawMessage` (a stored nil pointer is `none`),
and the work-space fields that a later call reads
(`serverRequest.Params`, `clientResponse.Id`, `clientResponse.Result`). -/
structure CodecState where
  seq : Nat
  pending : List (Nat × Option RawMessage)
  serverRequestParams : Option RawMessage
  clientResponseId : Nat
  clientResponseResult : Option RawMessage
  deriving Repr, Inhabited

/-- The state of a codec fresh out of `NewJSONCodec` / `NewJSONRPC2Codec`:
zero seq, empty pending map, zero-valued work space. -/
def initState : CodecState :=
  { seq := 0, pending := [], serverRequestParams := none,
    clientResponseId := 0, clientResponseResult := none }

/-- Outcome of one `ReadHeader` call: success or a returned error (both
carrying the post-call codec state and the possibly updated `req` and
`resp` records), or a runtime panic from dereferencing a nil id pointer. -/
inductive RHOut where
  | ok (c : CodecState) (req : Request) (resp : Response) : RHOut
  | err (c : CodecState) (e : GoErr) : RHOut
  | panicked : RHOut
  deriving Repr, Inhabited

/-- Outcome of one `WriteResponse` call: the frame put on the wire and the
post-call codec state, or an error (with the state, which it leaves as it
was except for what the source mutated before failing). -/
inductive WROut (Frame : Type) where
  | ok (c : CodecState) (frame : Frame) : WROut Frame
  | err (c : CodecState) (e : GoErr) : WROut Frame
  deriving Repr, Inhabited

/-- `json.Unmarshal(raw, &u)` for a uint64 destination holding `old`:
a JSON null is a no-op, a non-negative number is stored, anything else is
a type error.  (The uint64 upper bound is not modelled; no claim depends
on it.) -/
def jsonUnmarshalUInt64 (old : Nat) : RawMessage → Except String Nat
  | .null => .ok old
  | .num n => if 0 ≤ n then .ok n.toNat else .error "cannot unmarshal negative number into uint64"
  | _ => .error "cannot unmarshal value into uint64"

/-- First binding of a key in a decoded JSON object. -/
def lookupField (fields : List (String × Json)) (k : String) : Option Json :=
  match fields.find? (fun f => f.1 == k) with
  | some f => some f.2
  | none => none

/-- `json.Marshal(v)` followed by `json.Unmarshal` into a fresh
`rpc2.JsonRpcError`, as performed by the 2.0 codec's `ReadHeader`:
a nil interface marshals to null, which unmarshals as a no-op on the
zero-valued struct; an object fills the `code` (int), `message` (string)
and `data` (any) fields, absent or null fields keeping their zero value;
any other JSON value is a type error. -/
def unmarshalJsonRpcError : Option Json → Except String JsonRpcError
  | none => .ok { code := 0, message := "", data := none }
  | some .null => .ok { code := 0, message := "", data := none }
  | some (.obj fields) => do
      let code ← match lookupField fields "code" with
        | none => pure 0
        | some .null => pure 0
        | some (.num n) => pure n
        | some _ => Except.error "cannot unmarshal value into int64 field code"
      let message ← match lookupField fields "message" with
        | none => pure ""
        | some .null => pure ""
        | some (.str s) => pure s
        | some _ => Except.error "cannot unmarshal value into string field message"
      let data := match lookupField fields "data" with
        | none => none
        | some .null => none
        | some v => some v
      pure { code := code, message := message, data := data }
  | some _ => .error "cannot unmarshal value into JsonRpcError"

namespace jsonrpc

/-- The `message` struct of src/jsonrpc/jsonrpc.go, as filled by one
`c.dec.Decode(&c.msg)`: pointer fields are `none` when the JSON field is
absent or null, and `error` is the decoded interface value (`none` for
absent or null). -/
structure Message where
  method : String
  params : Option RawMessage
  id : Option RawMessage
  result : Option RawMessage
  error : Option Json
  deriving Repr, Inhabited

/-- The `clientRequest` frame written by the 1.0 codec's `WriteRequest`:
`params` is the Go array `[1]interface\x7b\x7d`, hence always a
one-element JSON array. -/
structure ClientRequest where
  method : String
  params : List Json
  id : Option Nat
  deriving Repr, Inhabited

/-- The `serverResponse` frame written by the 1.0 codec's
`WriteResponse`. -/
structure ServerResponse where
  id : RawMessage
  result : Json
  error : Option RespError
  deriving Repr, Inhabited

/-- `jsonCodec.ReadHeader` of src/jsonrpc/jsonrpc.go on an already decoded
message.  A non-empty method marks a server request: the params raw bytes
are stashed, and a present id is remapped to the next internal seq, which
is recorded in the pending map and reported in `req.Seq` (an absent id is
a notification and touches nothing else).  An empty method with a present
result is a client response: the id raw bytes are unmarshalled as the
internal seq, and the error interface value must be a string when the
error field is set or the result missing, an empty string being coerced
to "unspecified error".  Anything else: "cannot determine message
type". -/
def readHeader (c : CodecState) (req : Request) (resp : Response)
    (msg : Message) : RHOut :=
  if msg.method ≠ "" then
    let c := { c with serverRequestParams := msg.params }
    let req := { req with method := msg.method }
    match msg.id with
    | none => .ok c req resp
    | some rawId =>
      let newSeq := (c.seq + 1) % u64Mod
      .ok { c with seq := newSeq,
                   pending := mapInsert c.pending newSeq (some rawId) }
          { req with seq := newSeq } resp
  else if msg.result.isSome then
    match msg.id with
    | none => .panicked
    | some rawId =>
      match jsonUnmarshalUInt64 c.clientResponseId rawId with
      | .error e => .err c (.jsonError e)
      | .ok n =>
        let c := { c with clientResponseId := n,
                          clientResponseResult := msg.result }
        let resp := { resp with seq := n, error := some (.str "") }
        if msg.error.isSome || msg.result.isNone then
          match msg.error with
          | some (.str x) =>
            let x := if x = "" then "unspecified error" else x
            .ok c req { resp with error := some (.str x) }
          | e => .err c (.invalidError e)
        else
          .ok c req resp
  else
    .err c .cannotDetermineMessageType

/-- `jsonCodec.ReadRequestBody` of src/jsonrpc/jsonrpc.go.  `wantBody`
is whether the caller passed a non-nil destination.  The params raw bytes
are unmarshalled into the Go array `[param, x]`-style wrapper
`[1]interface\x7b\x7d`, so the first element of the params array lands in
the destination (an empty array leaves it untouched, a non-array is a
type error).  The result is the value decoded into the destination, if
any. -/
def readRequestBody (c : CodecState) (wantBody : Bool) :
    Except GoErr (Option Json) :=
  if !wantBody then .ok none
  else match c.serverRequestParams with
    | none => .error .missingParams
    | some raw =>
      match raw with
      | .arr (p :: _) => .ok (some p)
      | .arr [] => .ok none
      | .null => .ok none
      | _ => .error (.jsonError "cannot unmarshal value into array")

/-- `jsonCodec.WriteRequest` of src/jsonrpc/jsonrpc.go: the single
argument becomes `params[0]` of the one-element params array; `Seq == 0`
is a notification written with a nil id, any other seq is written as the
id. -/
def writeRequest (r : Request) (param : Json) : ClientRequest :=
  { method := r.method,
    params := [param],
    id := if r.seq = 0 then none else some r.seq }

/-- `jsonCodec.WriteResponse` of src/jsonrpc/jsonrpc.go: the seq must
have a pending entry, which is removed; the original id bytes (JSON null
for a stored nil pointer) become the wire id; an empty error string means
no error on the wire. -/
def writeResponse (c : CodecState) (r : Response) (x : Json) :
    WROut ServerResponse :=
  match mapLookup c.pending r.seq with
  | none => .err c .invalidSeqInResponse
  | some b =>
    let c := { c with pending := mapErase c.pending r.seq }
    let idBytes := match b with
      | none => Json.null
      | some j => j
    .ok c { id := idBytes,
            result := x,
            error := match r.error with
              | some (.str "") => none
              | e => e }

end jsonrpc

namespace jsonrpc2

/-- The `message` struct of src/jsonrpc2/jsonrpc2.go, as filled by one
`c.dec.Decode(&c.msg)`: pointer fields are `none` when the JSON field is
absent or null, and `error` is the decoded interface value (`none` for
absent or null). -/
structure Message where
  jsonrpc : String
  method : String
  params : Option RawMessage
  id : Option RawMessage
  result : Option RawMessage
  error : Option Json
  deriving Repr, Inhabited

/-- The Go dynamic type of the argument handed to the 2.0 codec's
`WriteRequest`, which type-switches on it: either the concrete type
`[]interface\x7b\x7d` (positional parameters) or any other type
(identified here by the JSON value it marshals to). -/
inductive GoValue where
  | ifaceSlice (elems : List Json) : GoValue
  | other (v : Json) : GoValue
  deriving Repr, Inhabited

/-- The params field of an outbound 2.0 request: `clientRequestArray`
carries a `[]interface\x7b\x7d` (a JSON array), `clientRequestNamed`
carries the value itself. -/
inductive ParamsWire where
  | positional (elems : List Json) : ParamsWire
  | named (v : Json) : ParamsWire
  deriving Repr, Inhabited

/-- The frame written by the 2.0 codec's `WriteRequest` (the union of the
`clientRequestArray` and `clientRequestNamed` structs, which differ only
in the type of their params field). -/
structure ClientRequest where
  jsonrpc : String
  method : String
  params : ParamsWire
  id : Option Nat
  deriving Repr, Inhabited

/-- The `serverResponse` frame written by the 2.0 codec's
`WriteResponse`; result and error carry omitempty, exactly one is set. -/
structure ServerResponse where
  jsonrpc : String
  id : RawMessage
  result : Option Json
  error : Option RespError
  deriving Repr, Inhabited

/-- The Go dynamic type of the destination handed to the 2.0 codec's
`ReadRequestBody`, which type-switches on it: a `*[]interface\x7b\x7d`
or a pointer of any other type. -/
inductive Proto where
  | slicePtr : Proto
  | otherPtr : Proto
  deriving Repr, Inhabited

/-- The value `ReadRequestBody` decodes into its destination: a slice of
interface values, or the JSON value delivered to a destination of some
other type. -/
inductive BodyVal where
  | sliceVal (elems : List Json) : BodyVal
  | anyVal (v : Json) : BodyVal
  deriving Repr, Inhabited

/-- `jsonCodec.ReadHeader` of src/jsonrpc2/jsonrpc2.go on an already
decoded message.  A non-empty method marks a server request, handled
exactly as in the 1.0 codec.  An empty method is unconditionally treated
as a client response: the id pointer is dereferenced (a nil pointer is a
runtime panic) and unmarshalled as the internal seq; if the error field
is set or the result missing, the error interface value is re-marshalled
and parsed as a structured `rpc2.JsonRpcError`, which becomes the
response's error. -/
def readHeader (c : CodecState) (req : Request) (resp : Response)
    (msg : Message) : RHOut :=
  if msg.method ≠ "" then
    let c := { c with serverRequestParams := msg.params }
    let req := { req with method := msg.method }
    match msg.id with
    | none => .ok c req resp
    | some rawId =>
      let newSeq := (c.seq + 1) % u64Mod
      .ok { c with seq := newSeq,
                   pending := mapInsert c.pending newSeq (some rawId) }
          { req with seq := newSeq } resp
  else
    match msg.id with
    | none => .panicked
    | some rawId =>
      match jsonUnmarshalUInt64 c.clientResponseId rawId with
      | .error e => .err c (.jsonError e)
      | .ok n =>
        let c := { c with clientResponseId := n,
                          clientResponseResult := msg.result }
        let resp := { resp with seq := n, error := none }
        if msg.error.isSome || msg.result.isNone then
          match unmarshalJsonRpcError msg.error with
          | .error e => .err c (.failedToUnmarshallError e)
          | .ok jre => .ok c req { resp with error := some (.jsonRpc jre) }
        else
          .ok c req resp

/-- `jsonCodec.ReadRequestBody` of src/jsonrpc2/jsonrpc2.go.  A nil
destination is a no-op; missing params fail; a `*[]interface\x7b\x7d`
destination unmarshals the params as a JSON array (a null is a no-op, a
non-array a type error); any other destination receives the params value
directly. -/
def readRequestBody (c : CodecState) (x : Option Proto) :
    Except GoErr (Option BodyVal) :=
  match x with
  | none => .ok none
  | some p =>
    match c.serverRequestParams with
    | none => .error .missingParams
    | some raw =>
      match p with
      | .slicePtr =>
        match raw with
        | .arr elems => .ok (some (.sliceVal elems))
        | .null => .ok none
        | _ => .error (.jsonError "cannot unmarshal value into slice")
      | .otherPtr => .ok (some (.anyVal raw))

/-- `jsonCodec.WriteRequest` of src/jsonrpc2/jsonrpc2.go: a
`[]interface\x7b\x7d` argument becomes the positional params array
unchanged, any other argument becomes the named params value itself;
in both arms `Seq == 0` is a notification written with a nil id, any
other seq is written as the id. -/
def writeRequest (r : Request) (param : GoValue) : ClientRequest :=
  match param with
  | .ifaceSlice elems =>
    { jsonrpc := "2.0", method := r.method,
      params := .positional elems,
      id := if r.seq = 0 then none else some r.seq }
  | .other v =>
    { jsonrpc := "2.0", method := r.method,
      params := .named v,
      id := if r.seq = 0 then none else some r.seq }

/-- `jsonCodec.WriteResponse` of src/jsonrpc2/jsonrpc2.go: the seq must
have a pending entry, which is removed; the original id bytes (JSON null
for a stored nil pointer) become the wire id; a nil response error puts
the body in result, otherwise the error is put in error and result is
omitted. -/
def writeResponse (c : CodecState) (r : Response) (x : Json) :
    WROut ServerResponse :=
  match mapLookup c.pending r.seq with
  | none => .err c .invalidSeqInResponse
  | some b =>
    let c := { c with pending := mapErase c.pending r.seq }
    let idBytes := match b with
      | none => Json.null
      | some j => j
    match r.error with
    | none =>
      .ok c { jsonrpc := "2.0", id := idBytes, result := some x, error := none }
    | some e =>
      .ok c { jsonrpc := "2.0", id := idBytes, result := none, error := some e }

/-- `jsonCodec.IsV2` of src/jsonrpc2/jsonrpc2.go. -/
def isV2 : Bool := true

/-- The internal sequence numbers assigned to inbound requests carrying
an id over a run of `ReadHeader` calls on one 2.0 codec, each call
receiving fresh zero-valued `req`/`resp` records; a panic ends the
run. -/
def runReads (c : CodecState) : List Message → List Nat
  | [] => []
  | m :: ms =>
    match readHeader c { method := "", seq := 0 } { seq := 0, error := none } m with
    | .ok c' req _ =>
      (if m.method ≠ "" ∧ m.id.isSome then [req.seq] else []) ++ runReads c' ms
    | .err c' _ => runReads c' ms
    | .panicked => []

end jsonrpc2

namespace jsonrpc

/-- The internal sequence numbers assigned to inbound requests carrying
an id over a run of `ReadHeader` calls on one 1.0 codec, each call
receiving fresh zero-valued `req`/`resp` records. -/
def runReads (c : CodecState) : List Message → List Nat
  | [] => []
  | m :: ms =>
    match readHeader c { method := "", seq := 0 } { seq := 0, error := none } m with
    | .ok c' req _ =>
      (if m.method ≠ "" ∧ m.id.isSome then [req.seq] else []) ++ runReads c' ms
    | .err c' _ => runReads c' ms
    | .panicked => []

end jsonrpc

/-! ## Helper lemmas about the Go-map model -/

theorem mapLookup_mapInsert_self {α : Type} (m : List (Nat × α)) (k : Nat)
    (v : α) : mapLookup (mapInsert m k v) k = some v := by
  simp [mapInsert, mapLookup]

theorem mapLookup_mapErase_self {α : Type} (m : List (Nat × α)) (k : Nat) :
    mapLookup (mapErase m k) k = none := by
  induction m with
  | nil => rfl
  | cons p ps ih =>
    by_cases h : p.1 = k <;> simp [mapErase, mapLookup, h, ih]

/-! ## Claims -/

/-- C9: a JSON-RPC 1.0 frame with empty method, null result and null
error is not reported as a response; `ReadHeader` returns the error
"cannot determine message type" and leaves the codec state untouched. -/
theorem C9_jsonrpc_response_misclassification
    (c : CodecState) (req : Request) (resp : Response) (msg : jsonrpc.Message)
    (hm : msg.method = "") (hr : msg.result = none) (_he : msg.error = none) :
    jsonrpc.readHeader c req resp msg = .err c .cannotDetermineMessageType := by
  simp [jsonrpc.readHeader, hm, hr]

/-- Witness for C9 at a concrete frame. -/
theorem C9_jsonrpc_response_misclassification_witness :
    let msg : jsonrpc.Message :=
      { method := "", params := none, id := some (.num 3), result := none,
        error := none }
    msg.method = "" ∧ msg.result = none ∧ msg.error = none ∧
    jsonrpc.readHeader initState ⟨"", 0⟩ ⟨0, none⟩ msg =
      .err initState .cannotDetermineMessageType :=
  ⟨rfl, rfl, rfl,
    C9_jsonrpc_response_misclassification initState ⟨"", 0⟩ ⟨0, none⟩ _ rfl rfl rfl⟩

/-- C10: the JSON-RPC 2.0 `ReadHeader` panics (dereferences a nil id
pointer) exactly on a frame whose method is empty and whose id is absent
or null; on every other frame it returns a value or an error. -/
theorem C10_jsonrpc2_readHeader_nil_id_panic
    (c : CodecState) (req : Request) (resp : Response) (msg : jsonrpc2.Message) :
    jsonrpc2.readHeader c req resp msg = .panicked ↔
      msg.method = "" ∧ msg.id = none := by
  unfold jsonrpc2.readHeader
  by_cases hm : msg.method = ""
  · cases hid : msg.id with
    | none => simp [hm, hid]
    | some rawId =>
      simp only [hm, hid, ne_eq, not_true_eq_false, if_false]
      cases hu : jsonUnmarshalUInt64 c.clientResponseId rawId with
      | error e => simp
      | ok n =>
        by_cases hcond : (msg.error.isSome || msg.result.isNone : Bool)
        · simp only [hcond, if_true]
          cases hje : unmarshalJsonRpcError msg.error <;> simp
        · simp only [hcond, if_false]
          simp
  · cases hid : msg.id <;> simp [hm, hid]

/-- C3: for both codecs, `WriteRequest` writes a nil id exactly when
`Seq == 0` (a notification) and writes the seq as the id otherwise; on
the read side, an inbound request whose id is absent leaves the reported
seq at 0 and inserts nothing into the pending map (the whole codec state
is untouched but for the stashed params bytes). -/
theorem C3_notification_semantics :
    (∀ (r : Request) (param : Json),
      ((jsonrpc.writeRequest r param).id = none ↔ r.seq = 0) ∧
      (r.seq ≠ 0 → (jsonrpc.writeRequest r param).id = some r.seq)) ∧
    (∀ (r : Request) (param : jsonrpc2.GoValue),
      ((jsonrpc2.writeRequest r param).id = none ↔ r.seq = 0) ∧
      (r.seq ≠ 0 → (jsonrpc2.writeRequest r param).id = some r.seq)) ∧
    (∀ (c : CodecState) (req : Request) (resp : Response) (msg : jsonrpc.Message),
      req.seq = 0 → msg.method ≠ "" → msg.id = none →
      jsonrpc.readHeader c req resp msg =
        .ok { c with serverRequestParams := msg.params } ⟨msg.method, 0⟩ resp) ∧
    (∀ (c : CodecState) (req : Request) (resp : Response) (msg : jsonrpc2.Message),
      req.seq = 0 → msg.method ≠ "" → msg.id = none →
      jsonrpc2.readHeader c req resp msg =
        .ok { c with serverRequestParams := msg.params } ⟨msg.method, 0⟩ resp) := by
  refine ⟨fun r param => ⟨?_, ?_⟩, fun r param => ⟨?_, ?_⟩, ?_, ?_⟩
  · simp [jsonrpc.writeRequest]
  · intro h; simp [jsonrpc.writeRequest, h]
  · cases param <;> simp [jsonrpc2.writeRequest]
  · intro h; cases param <;> simp [jsonrpc2.writeRequest, h]
  · intro c req resp msg hreq hm hid
    cases req
    simp_all [jsonrpc.readHeader]
  · intro c req resp msg hreq hm hid
    cases req
    simp_all [jsonrpc2.readHeader]

/-- Witness for C3 at concrete inputs: a notification write on each
codec, a numbered write on each codec, and a notification read on each
codec. -/
theorem C3_notification_semantics_witness :
    (jsonrpc.writeRequest ⟨"log", 0⟩ (.num 1)).id = none ∧
    (jsonrpc.writeRequest ⟨"add", 7⟩ (.num 1)).id = some 7 ∧
    (jsonrpc2.writeRequest ⟨"log", 0⟩ (.other (.num 1))).id = none ∧
    (jsonrpc2.writeRequest ⟨"add", 7⟩ (.ifaceSlice [.num 1])).id = some 7 ∧
    jsonrpc.readHeader initState ⟨"", 0⟩ ⟨0, none⟩
        { method := "log", params := none, id := none, result := none, error := none } =
      .ok { initState with serverRequestParams := none } ⟨"log", 0⟩ ⟨0, none⟩ ∧
    jsonrpc2.readHeader initState ⟨"", 0⟩ ⟨0, none⟩
        { jsonrpc := "2.0", method := "log", params := none, id := none,
          result := none, error := none } =
      .ok { initState with serverRequestParams := none } ⟨"log", 0⟩ ⟨0, none⟩ :=
  ⟨(C3_notification_semantics.1 ⟨"log", 0⟩ (.num 1)).1.mpr rfl,
   (C3_notification_semantics.1 ⟨"add", 7⟩ (.num 1)).2 (by decide),
   (C3_notification_semantics.2.1 ⟨"log", 0⟩ (.other (.num 1))).1.mpr rfl,
   (C3_notification_semantics.2.1 ⟨"add", 7⟩ (.ifaceSlice [.num 1])).2 (by decide),
   C3_notification_semantics.2.2.1 initState ⟨"", 0⟩ ⟨0, none⟩ _ rfl (by decide) rfl,
   C3_notification_semantics.2.2.2 initState ⟨"", 0⟩ ⟨0, none⟩ _ rfl (by decide) rfl⟩

/-- C4 counterexample: the 1.0 codec's `WriteRequest` does wrap an
argument that is itself an array into a nested one-element params array,
so the array does not pass through unchanged as the claim states. -/
theorem C4_array_argument_counterexample :
    (jsonrpc.writeRequest ⟨"add", 1⟩ (Json.arr [Json.num 1, Json.num 2])).params ≠
      [Json.num 1, Json.num 2] := by
  simp [jsonrpc.writeRequest]

/-- C4 as amended: the 1.0 codec's `WriteRequest` wraps every argument —
a single struct argument and equally an argument that is itself an array
— into a one-element params array, and `ReadRequestBody` unwraps the
first element of the received params array into the supplied
prototype. -/
theorem C4_param_shape_translation :
    (∀ (r : Request) (param : Json),
      (jsonrpc.writeRequest r param).params = [param]) ∧
    (∀ (c : CodecState) (p : Json) (rest : List Json),
      c.serverRequestParams = some (.arr (p :: rest)) →
      jsonrpc.readRequestBody c true = .ok (some p)) := by
  refine ⟨fun r param => rfl, fun c p rest hp => ?_⟩
  simp [jsonrpc.readRequestBody, hp]

/-- Witness for C4's amended claim at concrete inputs. -/
theorem C4_param_shape_translation_witness :
    (jsonrpc.writeRequest ⟨"add", 1⟩ (Json.arr [Json.num 1, Json.num 2])).params =
      [Json.arr [Json.num 1, Json.num 2]] ∧
    jsonrpc.readRequestBody
        { initState with serverRequestParams := some (.arr [.num 7, .num 8]) } true =
      .ok (some (.num 7)) :=
  ⟨C4_param_shape_translation.1 ⟨"add", 1⟩ (Json.arr [Json.num 1, Json.num 2]),
   C4_param_shape_translation.2 _ (.num 7) [.num 8] rfl⟩

/-- C5: the 2.0 codec's `WriteRequest` passes a Go
`[]interface\x7b\x7d` argument through unchanged as the positional
params array and writes any other argument as the named params value
itself; `ReadRequestBody` decodes the params into a
`*[]interface\x7b\x7d` destination as an array and into any other
destination as the value directly. -/
theorem C5_jsonrpc2_param_shape_duality :
    (∀ (r : Request) (elems : List Json),
      (jsonrpc2.writeRequest r (.ifaceSlice elems)).params = .positional elems) ∧
    (∀ (r : Request) (v : Json),
      (jsonrpc2.writeRequest r (.other v)).params = .named v) ∧
    (∀ (c : CodecState) (elems : List Json),
      c.serverRequestParams = some (.arr elems) →
      jsonrpc2.readRequestBody c (some .slicePtr) = .ok (some (.sliceVal elems))) ∧
    (∀ (c : CodecState) (raw : RawMessage),
      c.serverRequestParams = some raw →
      jsonrpc2.readRequestBody c (some .otherPtr) = .ok (some (.anyVal raw))) := by
  refine ⟨fun r elems => rfl, fun r v => rfl,
    fun c elems hp => ?_, fun c raw hp => ?_⟩
  · simp [jsonrpc2.readRequestBody, hp]
  · simp [jsonrpc2.readRequestBody, hp]

/-- Witness for C5 at concrete inputs. -/
theorem C5_jsonrpc2_param_shape_duality_witness :
    (jsonrpc2.writeRequest ⟨"add", 1⟩ (.ifaceSlice [.num 1, .num 2])).params =
      .positional [.num 1, .num 2] ∧
    (jsonrpc2.writeRequest ⟨"add", 1⟩ (.other (.obj [("a", .num 1)]))).params =
      .named (.obj [("a", .num 1)]) ∧
    jsonrpc2.readRequestBody
        { initState with serverRequestParams := some (.arr [.num 1, .num 2]) }
        (some .slicePtr) = .ok (some (.sliceVal [.num 1, .num 2])) ∧
    jsonrpc2.readRequestBody
        { initState with serverRequestParams := some (.obj [("a", .num 1)]) }
        (some .otherPtr) = .ok (some (.anyVal (.obj [("a", .num 1)]))) :=
  ⟨C5_jsonrpc2_param_shape_duality.1 ⟨"add", 1⟩ [.num 1, .num 2],
   C5_jsonrpc2_param_shape_duality.2.1 ⟨"add", 1⟩ (.obj [("a", .num 1)]),
   C5_jsonrpc2_param_shape_duality.2.2.1 _ [.num 1, .num 2] rfl,
   C5_jsonrpc2_param_shape_duality.2.2.2 _ (.obj [("a", .num 1)]) rfl⟩

/-- C1: for both codecs, `ReadHeader` on an inbound request carrying a
JSON id J assigns the next internal sequence number, stores it against J
in the codec-local pending map and reports it as the request's seq; a
`WriteResponse` for that seq then removes the entry and writes exactly J
as the id of the wire response. -/
theorem C1_id_remapping_roundtrip :
    (∀ (c : CodecState) (req : Request) (resp : Response) (msg : jsonrpc.Message)
        (J : RawMessage) (rerr : Option RespError) (x : Json),
      msg.method ≠ "" → msg.id = some J →
      ∃ c' req', jsonrpc.readHeader c req resp msg = .ok c' req' resp ∧
        req'.seq = (c.seq + 1) % u64Mod ∧
        mapLookup c'.pending req'.seq = some (some J) ∧
        ∃ c'' f, jsonrpc.writeResponse c' ⟨req'.seq, rerr⟩ x = .ok c'' f ∧
          f.id = J ∧ mapLookup c''.pending req'.seq = none) ∧
    (∀ (c : CodecState) (req : Request) (resp : Response) (msg : jsonrpc2.Message)
        (J : RawMessage) (rerr : Option RespError) (x : Json),
      msg.method ≠ "" → msg.id = some J →
      ∃ c' req', jsonrpc2.readHeader c req resp msg = .ok c' req' resp ∧
        req'.seq = (c.seq + 1) % u64Mod ∧
        mapLookup c'.pending req'.seq = some (some J) ∧
        ∃ c'' f, jsonrpc2.writeResponse c' ⟨req'.seq, rerr⟩ x = .ok c'' f ∧
          f.id = J ∧ mapLookup c''.pending req'.seq = none) := by
  constructor
  · intro c req resp msg J rerr x hm hid
    have hread : jsonrpc.readHeader c req resp msg =
        .ok { c with serverRequestParams := msg.params, seq := (c.seq + 1) % u64Mod,
                     pending := mapInsert c.pending ((c.seq + 1) % u64Mod) (some J) }
            { req with method := msg.method, seq := (c.seq + 1) % u64Mod } resp := by
      simp [jsonrpc.readHeader, hm, hid]
    refine ⟨_, _, hread, rfl, mapLookup_mapInsert_self _ _ _, ?_⟩
    unfold jsonrpc.writeResponse
    rw [show mapLookup (mapInsert c.pending ((c.seq + 1) % u64Mod) (some J))
          ((c.seq + 1) % u64Mod) = some (some J)
        from mapLookup_mapInsert_self _ _ _]
    exact ⟨_, _, rfl, rfl, mapLookup_mapErase_self _ _⟩
  · intro c req resp msg J rerr x hm hid
    have hread : jsonrpc2.readHeader c req resp msg =
        .ok { c with serverRequestParams := msg.params, seq := (c.seq + 1) % u64Mod,
                     pending := mapInsert c.pending ((c.seq + 1) % u64Mod) (some J) }
            { req with method := msg.method, seq := (c.seq + 1) % u64Mod } resp := by
      simp [jsonrpc2.readHeader, hm, hid]
    refine ⟨_, _, hread, rfl, mapLookup_mapInsert_self _ _ _, ?_⟩
    unfold jsonrpc2.writeResponse
    rw [show mapLookup (mapInsert c.pending ((c.seq + 1) % u64Mod) (some J))
          ((c.seq + 1) % u64Mod) = some (some J)
        from mapLookup_mapInsert_self _ _ _]
    cases rerr <;> exact ⟨_, _, rfl, rfl, mapLookup_mapErase_self _ _⟩

/-- Witness for C1: a concrete request with string id "abc-42" read by
each codec, answered through `WriteResponse`. -/
theorem C1_id_remapping_roundtrip_witness :
    ((jsonrpc.Message.method
        { method := "add", params := none, id := some (.str "abc-42"),
          result := none, error := none } ≠ "") ∧
     ∃ c' req',
       jsonrpc.readHeader initState ⟨"", 0⟩ ⟨0, none⟩
           { method := "add", params := none, id := some (.str "abc-42"),
             result := none, error := none } = .ok c' req' ⟨0, none⟩ ∧
       req'.seq = (initState.seq + 1) % u64Mod ∧
       mapLookup c'.pending req'.seq = some (some (.str "abc-42")) ∧
       ∃ c'' f, jsonrpc.writeResponse c' ⟨req'.seq, none⟩ (.num 3) = .ok c'' f ∧
         f.id = .str "abc-42" ∧ mapLookup c''.pending req'.seq = none) ∧
    ((jsonrpc2.Message.method
        { jsonrpc := "2.0", method := "add", params := none,
          id := some (.str "abc-42"), result := none, error := none } ≠ "") ∧
     ∃ c' req',
       jsonrpc2.readHeader initState ⟨"", 0⟩ ⟨0, none⟩
           { jsonrpc := "2.0", method := "add", params := none,
             id := some (.str "abc-42"), result := none, error := none } =
         .ok c' req' ⟨0, none⟩ ∧
       req'.seq = (initState.seq + 1) % u64Mod ∧
       mapLookup c'.pending req'.seq = some (some (.str "abc-42")) ∧
       ∃ c'' f, jsonrpc2.writeResponse c' ⟨req'.seq, none⟩ (.num 3) = .ok c'' f ∧
         f.id = .str "abc-42" ∧ mapLookup c''.pending req'.seq = none) :=
  ⟨⟨by decide,
    C1_id_remapping_roundtrip.1 initState ⟨"", 0⟩ ⟨0, none⟩ _ _ none (.num 3)
      (by decide) rfl⟩,
   ⟨by decide,
    C1_id_remapping_roundtrip.2 initState ⟨"", 0⟩ ⟨0, none⟩ _ _ none (.num 3)
      (by decide) rfl⟩⟩

/-- C2: for both codecs, a `WriteResponse` whose seq has no pending entry
fails with "invalid sequence number in response", writing nothing and
leaving the codec state unchanged; and since a successful `WriteResponse`
removes the entry, a second `WriteResponse` with the same seq always
fails. -/
theorem C2_at_most_once_response :
    (∀ (c : CodecState) (r : Response) (x : Json),
      mapLookup c.pending r.seq = none →
      jsonrpc.writeResponse c r x = .err c .invalidSeqInResponse) ∧
    (∀ (c c' : CodecState) (r r' : Response) (x y : Json)
        (f : jsonrpc.ServerResponse),
      jsonrpc.writeResponse c r x = .ok c' f → r'.seq = r.seq →
      jsonrpc.writeResponse c' r' y = .err c' .invalidSeqInResponse) ∧
    (∀ (c : CodecState) (r : Response) (x : Json),
      mapLookup c.pending r.seq = none →
      jsonrpc2.writeResponse c r x = .err c .invalidSeqInResponse) ∧
    (∀ (c c' : CodecState) (r r' : Response) (x y : Json)
        (f : jsonrpc2.ServerResponse),
      jsonrpc2.writeResponse c r x = .ok c' f → r'.seq = r.seq →
      jsonrpc2.writeResponse c' r' y = .err c' .invalidSeqInResponse) := by
  have h10 : ∀ (c : CodecState) (r : Response) (x : Json),
      mapLookup c.pending r.seq = none →
      jsonrpc.writeResponse c r x = .err c .invalidSeqInResponse := by
    intro c r x h
    unfold jsonrpc.writeResponse
    rw [h]
  have h20 : ∀ (c : CodecState) (r : Response) (x : Json),
      mapLookup c.pending r.seq = none →
      jsonrpc2.writeResponse c r x = .err c .invalidSeqInResponse := by
    intro c r x h
    unfold jsonrpc2.writeResponse
    rw [h]
  refine ⟨h10, ?_, h20, ?_⟩
  · intro c c' r r' x y f h hr
    have hp : c'.pending = mapErase c.pending r.seq := by
      unfold jsonrpc.writeResponse at h
      cases hl : mapLookup c.pending r.seq with
      | none => rw [hl] at h; cases h
      | some b => rw [hl] at h; cases h; rfl
    apply h10
    rw [hr, hp]
    exact mapLookup_mapErase_self _ _
  · intro c c' r r' x y f h hr
    have hp : c'.pending = mapErase c.pending r.seq := by
      unfold jsonrpc2.writeResponse at h
      cases hl : mapLookup c.pending r.seq with
      | none => rw [hl] at h; cases h
      | some b =>
        rw [hl] at h
        cases hre : r.error <;> rw [hre] at h <;> (cases h; rfl)
    apply h20
    rw [hr, hp]
    exact mapLookup_mapErase_self _ _

/-- Witness for C2: on each codec, a lookup miss fails, and after one
successful response for seq 1 a second response for seq 1 fails. -/
theorem C2_at_most_once_response_witness :
    (mapLookup initState.pending 5 = none ∧
     jsonrpc.writeResponse initState ⟨5, none⟩ (.num 1) =
       .err initState .invalidSeqInResponse) ∧
    (jsonrpc.writeResponse
        { initState with pending := [(1, some (.str "a"))] } ⟨1, none⟩ (.num 2) =
      .ok initState ⟨.str "a", .num 2, none⟩ ∧
     jsonrpc.writeResponse initState ⟨1, none⟩ (.num 3) =
       .err initState .invalidSeqInResponse) ∧
    (mapLookup initState.pending 5 = none ∧
     jsonrpc2.writeResponse initState ⟨5, none⟩ (.num 1) =
       .err initState .invalidSeqInResponse) ∧
    (jsonrpc2.writeResponse
        { initState with pending := [(1, some (.str "a"))] } ⟨1, none⟩ (.num 2) =
      .ok initState ⟨"2.0", .str "a", some (.num 2), none⟩ ∧
     jsonrpc2.writeResponse initState ⟨1, none⟩ (.num 3) =
       .err initState .invalidSeqInResponse) :=
  ⟨⟨rfl, C2_at_most_once_response.1 initState ⟨5, none⟩ (.num 1) rfl⟩,
   ⟨rfl, C2_at_most_once_response.2.1
      { initState with pending := [(1, some (.str "a"))] } initState
      ⟨1, none⟩ ⟨1, none⟩ (.num 2) (.num 3) ⟨.str "a", .num 2, none⟩ rfl rfl⟩,
   ⟨rfl, C2_at_most_once_response.2.2.1 initState ⟨5, none⟩ (.num 1) rfl⟩,
   ⟨rfl, C2_at_most_once_response.2.2.2
      { initState with pending := [(1, some (.str "a"))] } initState
      ⟨1, none⟩ ⟨1, none⟩ (.num 2) (.num 3) ⟨"2.0", .str "a", some (.num 2), none⟩
      rfl rfl⟩⟩

/-- C6: the 1.0 codec's `ReadHeader` on a frame it treats as a response
(empty method, present result — a frame with a null result never reaches
the response path, so the source's condition "error non-null or result
null" collapses to "error non-null") surfaces a non-empty error string
exactly when the frame's error field is non-null: a null error yields the
empty (success) error string, a non-string error value fails with the
"invalid error" error, and an empty error string is coerced to
"unspecified error". -/
theorem C6_jsonrpc_inbound_error_surfacing
    (c : CodecState) (req : Request) (resp : Response) (msg : jsonrpc.Message)
    (res rawId : RawMessage) (n : Nat)
    (hm : msg.method = "") (hr : msg.result = some res)
    (hid : msg.id = some rawId)
    (hu : jsonUnmarshalUInt64 c.clientResponseId rawId = .ok n) :
    (msg.error = none →
      jsonrpc.readHeader c req resp msg =
        .ok { c with clientResponseId := n, clientResponseResult := msg.result }
            req ⟨n, some (.str "")⟩) ∧
    (∀ s, msg.error = some (.str s) → s ≠ "" →
      jsonrpc.readHeader c req resp msg =
        .ok { c with clientResponseId := n, clientResponseResult := msg.result }
            req ⟨n, some (.str s)⟩) ∧
    (msg.error = some (.str "") →
      jsonrpc.readHeader c req resp msg =
        .ok { c with clientResponseId := n, clientResponseResult := msg.result }
            req ⟨n, some (.str "unspecified error")⟩) ∧
    (∀ e, msg.error = some e → (∀ s, e ≠ .str s) →
      jsonrpc.readHeader c req resp msg =
        .err { c with clientResponseId := n, clientResponseResult := msg.result }
            (.invalidError (some e))) := by
  cases resp
  refine ⟨?_, ?_, ?_, ?_⟩
  · intro he
    simp [jsonrpc.readHeader, hm, hr, hid, hu, he]
  · intro s he hs
    simp [jsonrpc.readHeader, hm, hr, hid, hu, he, hs]
  · intro he
    simp [jsonrpc.readHeader, hm, hr, hid, hu, he]
  · intro e he hne
    cases e with
    | str s => exact absurd rfl (hne s)
    | null => simp [jsonrpc.readHeader, hm, hr, hid, hu, he]
    | bool b => simp [jsonrpc.readHeader, hm, hr, hid, hu, he]
    | num k => simp [jsonrpc.readHeader, hm, hr, hid, hu, he]
    | arr elems => simp [jsonrpc.readHeader, hm, hr, hid, hu, he]
    | obj fields => simp [jsonrpc.readHeader, hm, hr, hid, hu, he]

/-- Witness for C6: a response frame whose error is the empty string is
surfaced as "unspecified error". -/
theorem C6_jsonrpc_inbound_error_surfacing_witness :
    (jsonrpc.Message.method
      { method := "", params := none, id := some (.num 9),
        result := some (.num 1), error := some (.str "") } = "") ∧
    jsonUnmarshalUInt64 initState.clientResponseId (.num 9) = .ok 9 ∧
    jsonrpc.readHeader initState ⟨"", 0⟩ ⟨0, none⟩
        { method := "", params := none, id := some (.num 9),
          result := some (.num 1), error := some (.str "") } =
      .ok { initState with clientResponseId := 9,
                           clientResponseResult := some (.num 1) }
          ⟨"", 0⟩ ⟨9, some (.str "unspecified error")⟩ :=
  ⟨rfl, rfl,
   (C6_jsonrpc_inbound_error_surfacing initState ⟨"", 0⟩ ⟨0, none⟩ _
      (.num 1) (.num 9) 9 rfl rfl rfl rfl).2.2.1 rfl⟩

/-- C7: the 2.0 codec's `ReadHeader` on a frame it treats as a response
(empty method, id present) surfaces an error exactly when the frame's
error field is non-null or its result field is null, in which case the
error value is re-marshalled and parsed as the structured
code/message/data object and set as the response's error (the parse
failing makes `ReadHeader` itself fail); otherwise the response's error
stays nil. -/
theorem C7_jsonrpc2_inbound_error_surfacing
    (c : CodecState) (req : Request) (resp : Response) (msg : jsonrpc2.Message)
    (rawId : RawMessage) (n : Nat)
    (hm : msg.method = "") (hid : msg.id = some rawId)
    (hu : jsonUnmarshalUInt64 c.clientResponseId rawId = .ok n) :
    (∀ jre, (msg.error.isSome ∨ msg.result = none) →
      unmarshalJsonRpcError msg.error = .ok jre →
      jsonrpc2.readHeader c req resp msg =
        .ok { c with clientResponseId := n, clientResponseResult := msg.result }
            req ⟨n, some (.jsonRpc jre)⟩) ∧
    (∀ s, (msg.error.isSome ∨ msg.result = none) →
      unmarshalJsonRpcError msg.error = .error s →
      jsonrpc2.readHeader c req resp msg =
        .err { c with clientResponseId := n, clientResponseResult := msg.result }
            (.failedToUnmarshallError s)) ∧
    (msg.error = none → msg.result ≠ none →
      jsonrpc2.readHeader c req resp msg =
        .ok { c with clientResponseId := n, clientResponseResult := msg.result }
            req ⟨n, none⟩) := by
  cases resp
  have hcond : ∀ (h : msg.error.isSome ∨ msg.result = none),
      (msg.error.isSome || msg.result.isNone) = true := by
    intro h
    rcases h with h | h
    · simp [h]
    · simp [h]
  refine ⟨?_, ?_, ?_⟩
  · intro jre hor hje
    simp [jsonrpc2.readHeader, hm, hid, hu, hcond hor, hje]
  · intro s hor hje
    simp [jsonrpc2.readHeader, hm, hid, hu, hcond hor, hje]
  · intro he hres
    have h1 : msg.error.isSome = false := by simp [he]
    have h2 : msg.result.isNone = false := by
      cases hx : msg.result with
      | none => exact absurd hx hres
      | some v => rfl
    simp [jsonrpc2.readHeader, hm, hid, hu, h1, h2]

/-- Witness for C7: a response frame with a structured error object is
surfaced as a `JsonRpcError` with its code and message. -/
theorem C7_jsonrpc2_inbound_error_surfacing_witness :
    (jsonrpc2.Message.method
      { jsonrpc := "2.0", method := "", params := none, id := some (.num 4),
        result := none,
        error := some (.obj [("code", .num (-32601)), ("message", .str "nope")]) }
      = "") ∧
    jsonUnmarshalUInt64 initState.clientResponseId (.num 4) = .ok 4 ∧
    unmarshalJsonRpcError
        (some (.obj [("code", .num (-32601)), ("message", .str "nope")])) =
      .ok ⟨-32601, "nope", none⟩ ∧
    jsonrpc2.readHeader initState ⟨"", 0⟩ ⟨0, none⟩
        { jsonrpc := "2.0", method := "", params := none, id := some (.num 4),
          result := none,
          error := some (.obj [("code", .num (-32601)), ("message", .str "nope")]) } =
      .ok { initState with clientResponseId := 4, clientResponseResult := none }
          ⟨"", 0⟩ ⟨4, some (.jsonRpc ⟨-32601, "nope", none⟩)⟩ :=
  ⟨rfl, rfl, rfl,
   (C7_jsonrpc2_inbound_error_surfacing initState ⟨"", 0⟩ ⟨0, none⟩ _
      (.num 4) 4 rfl rfl rfl).1 ⟨-32601, "nope", none⟩ (Or.inr rfl) rfl⟩

/-- On a request frame carrying an id, `ReadHeader` (1.0) succeeds and
both the codec's seq and the reported seq become the incremented
value. -/
theorem jsonrpc_readHeader_assigned (c : CodecState) (req : Request)
    (resp : Response) (msg : jsonrpc.Message)
    (hm : msg.method ≠ "") (hid : msg.id.isSome) :
    ∃ c' req', jsonrpc.readHeader c req resp msg = .ok c' req' resp ∧
      c'.seq = (c.seq + 1) % u64Mod ∧ req'.seq = (c.seq + 1) % u64Mod := by
  obtain ⟨J, hJ⟩ := Option.isSome_iff_exists.mp hid
  have hread : jsonrpc.readHeader c req resp msg =
      .ok { c with serverRequestParams := msg.params, seq := (c.seq + 1) % u64Mod,
                   pending := mapInsert c.pending ((c.seq + 1) % u64Mod) (some J) }
          { req with method := msg.method, seq := (c.seq + 1) % u64Mod } resp := by
    simp [jsonrpc.readHeader, hm, hJ]
  exact ⟨_, _, hread, rfl, rfl⟩

/-- On any frame that is not a request carrying an id, `ReadHeader` (1.0)
leaves the codec's seq counter unchanged (or panics). -/
theorem jsonrpc_readHeader_not_assigned (c : CodecState) (req : Request)
    (resp : Response) (msg : jsonrpc.Message)
    (h : ¬(msg.method ≠ "" ∧ msg.id.isSome)) :
    (∃ c' req' resp', jsonrpc.readHeader c req resp msg = .ok c' req' resp' ∧
      c'.seq = c.seq) ∨
    (∃ c' e, jsonrpc.readHeader c req resp msg = .err c' e ∧ c'.seq = c.seq) ∨
    jsonrpc.readHeader c req resp msg = .panicked := by
  by_cases hm : msg.method = ""
  · unfold jsonrpc.readHeader
    rw [if_neg (by simp [hm])]
    repeat' split
    all_goals first
      | exact Or.inl ⟨_, _, _, rfl, rfl⟩
      | exact Or.inr (Or.inl ⟨_, _, rfl, rfl⟩)
      | exact Or.inr (Or.inr rfl)
  · have hid : msg.id = none := by
      cases hx : msg.id with
      | none => rfl
      | some v => exact absurd ⟨hm, by simp [hx]⟩ h
    unfold jsonrpc.readHeader
    rw [if_pos hm, hid]
    exact Or.inl ⟨_, _, _, rfl, rfl⟩

/-- Over any run of `ReadHeader` calls on one 1.0 codec that stays below
the uint64 wrap-around, the assigned seq values are exactly the
consecutive integers starting right after the codec's current seq. -/
theorem jsonrpc_runReads_range (msgs : List jsonrpc.Message) :
    ∀ c : CodecState, c.seq + msgs.length < u64Mod →
    ∃ k ≤ msgs.length,
      jsonrpc.runReads c msgs = List.range' (c.seq + 1) k := by
  induction msgs with
  | nil => exact fun c _ => ⟨0, Nat.le_refl 0, rfl⟩
  | cons m ms ih =>
    intro c h
    have hlen : (m :: ms).length = ms.length + 1 := rfl
    by_cases hcond : m.method ≠ "" ∧ m.id.isSome
    · obtain ⟨c', req', hread, hc, hreq⟩ :=
        jsonrpc_readHeader_assigned c ⟨"", 0⟩ ⟨0, none⟩ m hcond.1 hcond.2
      have hmod : (c.seq + 1) % u64Mod = c.seq + 1 :=
        Nat.mod_eq_of_lt (by simp [hlen] at h; omega)
      obtain ⟨k, hk, hrun⟩ := ih c' (by rw [hc, hmod]; simp [hlen] at h; omega)
      refine ⟨k + 1, by simp [hlen]; omega, ?_⟩
      simp only [jsonrpc.runReads, hread, if_pos hcond]
      rw [hrun, hreq, hc, hmod, List.range'_succ]
      rfl
    · have hout := jsonrpc_readHeader_not_assigned c ⟨"", 0⟩ ⟨0, none⟩ m hcond
      rcases hout with ⟨c', req', resp', hread, hc⟩ | ⟨c', e, hread, hc⟩ | hread
      · obtain ⟨k, hk, hrun⟩ := ih c' (by rw [hc]; simp [hlen] at h; omega)
        refine ⟨k, by simp [hlen]; omega, ?_⟩
        simp only [jsonrpc.runReads, hread, if_neg hcond]
        rw [hrun, hc]
        rfl
      · obtain ⟨k, hk, hrun⟩ := ih c' (by rw [hc]; simp [hlen] at h; omega)
        refine ⟨k, by simp [hlen]; omega, ?_⟩
        simp only [jsonrpc.runReads, hread]
        rw [hrun, hc]
      · refine ⟨0, by simp, ?_⟩
        simp only [jsonrpc.runReads, hread]
        rfl

/-- On a request frame carrying an id, `ReadHeader` (2.0) succeeds and
both the codec's seq and the reported seq become the incremented
value. -/
theorem jsonrpc2_readHeader_assigned (c : CodecState) (req : Request)
    (resp : Response) (msg : jsonrpc2.Message)
    (hm : msg.method ≠ "") (hid : msg.id.isSome) :
    ∃ c' req', jsonrpc2.readHeader c req resp msg = .ok c' req' resp ∧
      c'.seq = (c.seq + 1) % u64Mod ∧ req'.seq = (c.seq + 1) % u64Mod := by
  obtain ⟨J, hJ⟩ := Option.isSome_iff_exists.mp hid
  have hread : jsonrpc2.readHeader c req resp msg =
      .ok { c with serverRequestParams := msg.params, seq := (c.seq + 1) % u64Mod,
                   pending := mapInsert c.pending ((c.seq + 1) % u64Mod) (some J) }
          { req with method := msg.method, seq := (c.seq + 1) % u64Mod } resp := by
    simp [jsonrpc2.readHeader, hm, hJ]
  exact ⟨_, _, hread, rfl, rfl⟩

/-- On any frame that is not a request carrying an id, `ReadHeader` (2.0)
leaves the codec's seq counter unchanged (or panics). -/
theorem jsonrpc2_readHeader_not_assigned (c : CodecState) (req : Request)
    (resp : Response) (msg : jsonrpc2.Message)
    (h : ¬(msg.method ≠ "" ∧ msg.id.isSome)) :
    (∃ c' req' resp', jsonrpc2.readHeader c req resp msg = .ok c' req' resp' ∧
      c'.seq = c.seq) ∨
    (∃ c' e, jsonrpc2.readHeader c req resp msg = .err c' e ∧ c'.seq = c.seq) ∨
    jsonrpc2.readHeader c req resp msg = .panicked := by
  by_cases hm : msg.method = ""
  · unfold jsonrpc2.readHeader
    rw [if_neg (by simp [hm])]
    repeat' split
    all_goals first
      | exact Or.inl ⟨_, _, _, rfl, rfl⟩
      | exact Or.inr (Or.inl ⟨_, _, rfl, rfl⟩)
      | exact Or.inr (Or.inr rfl)
  · have hid : msg.id = none := by
      cases hx : msg.id with
      | none => rfl
      | some v => exact absurd ⟨hm, by simp [hx]⟩ h
    unfold jsonrpc2.readHeader
    rw [if_pos hm, hid]
    exact Or.inl ⟨_, _, _, rfl, rfl⟩

/-- Over any run of `ReadHeader` calls on one 2.0 codec that stays below
the uint64 wrap-around, the assigned seq values are exactly the
consecutive integers starting right after the codec's current seq. -/
theorem jsonrpc2_runReads_range (msgs : List jsonrpc2.Message) :
    ∀ c : CodecState, c.seq + msgs.length < u64Mod →
    ∃ k ≤ msgs.length,
      jsonrpc2.runReads c msgs = List.range' (c.seq + 1) k := by
  induction msgs with
  | nil => exact fun c _ => ⟨0, Nat.le_refl 0, rfl⟩
  | cons m ms ih =>
    intro c h
    have hlen : (m :: ms).length = ms.length + 1 := rfl
    by_cases hcond : m.method ≠ "" ∧ m.id.isSome
    · obtain ⟨c', req', hread, hc, hreq⟩ :=
        jsonrpc2_readHeader_assigned c ⟨"", 0⟩ ⟨0, none⟩ m hcond.1 hcond.2
      have hmod : (c.seq + 1) % u64Mod = c.seq + 1 :=
        Nat.mod_eq_of_lt (by simp [hlen] at h; omega)
      obtain ⟨k, hk, hrun⟩ := ih c' (by rw [hc, hmod]; simp [hlen] at h; omega)
      refine ⟨k + 1, by simp [hlen]; omega, ?_⟩
      simp only [jsonrpc2.runReads, hread, if_pos hcond]
      rw [hrun, hreq, hc, hmod, List.range'_succ]
      rfl
    · have hout := jsonrpc2_readHeader_not_assigned c ⟨"", 0⟩ ⟨0, none⟩ m hcond
      rcases hout with ⟨c', req', resp', hread, hc⟩ | ⟨c', e, hread, hc⟩ | hread
      · obtain ⟨k, hk, hrun⟩ := ih c' (by rw [hc]; simp [hlen] at h; omega)
        refine ⟨k, by simp [hlen]; omega, ?_⟩
        simp only [jsonrpc2.runReads, hread, if_neg hcond]
        rw [hrun, hc]
        rfl
      · obtain ⟨k, hk, hrun⟩ := ih c' (by rw [hc]; simp [hlen] at h; omega)
        refine ⟨k, by simp [hlen]; omega, ?_⟩
        simp only [jsonrpc2.runReads, hread]
        rw [hrun, hc]
      · refine ⟨0, by simp, ?_⟩
        simp only [jsonrpc2.runReads, hread]
        rfl

/-- C8: over any sequence of `ReadHeader` calls on one fresh codec (of
either version) that stays below the uint64 wrap-around, the internal
seq values assigned to inbound requests carrying an id are the
consecutive integers 1, 2, 3, ...: strictly increasing by one from 1,
never reused, and never the notification sentinel 0. -/
theorem C8_codec_local_sequence_invariant
    (msgs1 : List jsonrpc.Message) (msgs2 : List jsonrpc2.Message)
    (h1 : msgs1.length < u64Mod) (h2 : msgs2.length < u64Mod) :
    ((∃ k, jsonrpc.runReads initState msgs1 = List.range' 1 k) ∧
     (jsonrpc.runReads initState msgs1).Nodup ∧
     ∀ s ∈ jsonrpc.runReads initState msgs1, 0 < s) ∧
    ((∃ k, jsonrpc2.runReads initState msgs2 = List.range' 1 k) ∧
     (jsonrpc2.runReads initState msgs2).Nodup ∧
     ∀ s ∈ jsonrpc2.runReads initState msgs2, 0 < s) := by
  obtain ⟨k1, _, hr1⟩ := jsonrpc_runReads_range msgs1 initState (by simpa [initState] using h1)
  obtain ⟨k2, _, hr2⟩ := jsonrpc2_runReads_range msgs2 initState (by simpa [initState] using h2)
  have hi : initState.seq + 1 = 1 := rfl
  rw [hi] at hr1 hr2
  refine ⟨⟨⟨k1, hr1⟩, ?_, ?_⟩, ⟨⟨k2, hr2⟩, ?_, ?_⟩⟩
  · rw [hr1]; exact List.nodup_range' 1 k1
  · intro s hs
    rw [hr1] at hs
    exact Nat.lt_of_lt_of_le Nat.zero_lt_one (List.mem_range'_1.mp hs).1
  · rw [hr2]; exact List.nodup_range' 1 k2
  · intro s hs
    rw [hr2] at hs
    exact Nat.lt_of_lt_of_le Nat.zero_lt_one (List.mem_range'_1.mp hs).1

/-- Witness for C8: a concrete three-frame run on each codec (two
requests with ids around a notification) assigns exactly seqs 1, 2. -/
theorem C8_codec_local_sequence_invariant_witness :
    ([(⟨"a", none, some (.num 1), none, none⟩ : jsonrpc.Message),
      ⟨"b", none, none, none, none⟩,
      ⟨"c", none, some (.str "x"), none, none⟩].length < u64Mod) ∧
    ([(⟨"2.0", "a", none, some (.num 1), none, none⟩ : jsonrpc2.Message),
      ⟨"2.0", "b", none, none, none, none⟩,
      ⟨"2.0", "c", none, some (.str "x"), none, none⟩].length < u64Mod) ∧
    ((∃ k, jsonrpc.runReads initState
        [⟨"a", none, some (.num 1), none, none⟩,
         ⟨"b", none, none, none, none⟩,
         ⟨"c", none, some (.str "x"), none, none⟩] = List.range' 1 k) ∧
     (jsonrpc.runReads initState
        [⟨"a", none, some (.num 1), none, none⟩,
         ⟨"b", none, none, none, none⟩,
         ⟨"c", none, some (.str "x"), none, none⟩]).Nodup ∧
     ∀ s ∈ jsonrpc.runReads initState
        [⟨"a", none, some (.num 1), none, none⟩,
         ⟨"b", none, none, none, none⟩,
         ⟨"c", none, some (.str "x"), none, none⟩], 0 < s) ∧
    ((∃ k, jsonrpc2.runReads initState
        [⟨"2.0", "a", none, some (.num 1), none, none⟩,
         ⟨"2.0", "b", none, none, none, none⟩,
         ⟨"2.0", "c", none, some (.str "x"), none, none⟩] = List.range' 1 k) ∧
     (jsonrpc2.runReads initState
        [⟨"2.0", "a", none, some (.num 1), none, none⟩,
         ⟨"2.0", "b", none, none, none, none⟩,
         ⟨"2.0", "c", none, some (.str "x"), none, none⟩]).Nodup ∧
     ∀ s ∈ jsonrpc2.runReads initState
        [⟨"2.0", "a", none, some (.num 1), none, none⟩,
         ⟨"2.0", "b", none, none, none, none⟩,
         ⟨"2.0", "c", none, some (.str "x"), none, none⟩], 0 < s) := by
  refine ⟨by norm_num [u64Mod], by norm_num [u64Mod], ?_⟩
  exact C8_codec_local_sequence_invariant _ _
    (by norm_num [u64Mod]) (by norm_num [u64Mod])
